import Mathlib

/-!
Verification of the release-management script `cmd.py` (Kodi addon repository).

The development shallowly embeds the script's logic:
* Python string operations (`str.split`, `str.strip`, `str.join`, `int(...)`,
  `str(...)` on naturals) as executable functions on `List Char`;
* `distutils.version.StrictVersion` parsing and ordering;
* the version-decision logic of `update_addon` (lines 139-149 of `cmd.py`);
* the XML metadata-default fill (lines 162-167);
* the changelog extraction pipeline (lines 158-159);
* the whole `update_addon` run as a function over an environment recording
  the outcomes of the external git/filesystem collaborators;
* `update_addons_xml` (lines 49-78) and `get_addons` (lines 36-47).
-/

/-- Python strings are modelled as lists of characters. -/
abbrev PyStr := List Char

/-! ## Python string primitives -/

/-- Characters considered whitespace by Python's `str.strip()`. -/
def isPySpace (c : Char) : Bool :=
  c == ' ' || c == '\t' || c == '\n' || c == '\r' || c == '\x0b' || c == '\x0c'

/-- Python `s.strip()`: drop leading and trailing whitespace. -/
def pyStrip (s : PyStr) : PyStr :=
  ((s.dropWhile isPySpace).reverse.dropWhile isPySpace).reverse

/-- Python `sep.join(parts)` (also the list form of `str.split`'s inverse). -/
def pyJoin (sep : PyStr) : List PyStr → PyStr
  | [] => []
  | [p] => p
  | p :: q :: rest => p ++ sep ++ pyJoin sep (q :: rest)

/-- Scanner for Python `s.split(sep)` with a one-character separator `sep`.
`acc` holds the current chunk reversed. -/
def pySplitCharAux (sep : Char) (acc : PyStr) : PyStr → List PyStr
  | [] => [acc.reverse]
  | c :: cs =>
      if c == sep then acc.reverse :: pySplitCharAux sep [] cs
      else pySplitCharAux sep (c :: acc) cs

/-- Python `s.split(sep)` for a one-character separator. -/
def pySplitChar (sep : Char) (s : PyStr) : List PyStr :=
  pySplitCharAux sep [] s

/-- Scanner for Python `s.split(sep)` with a two-character separator `a ++ b`,
matching the leftmost occurrence first, non-overlapping. -/
def pySplitTwoAux (a b : Char) (acc : PyStr) : PyStr → List PyStr
  | [] => [acc.reverse]
  | [c] => [(c :: acc).reverse]
  | c :: d :: rest =>
      if c == a && d == b then acc.reverse :: pySplitTwoAux a b [] rest
      else pySplitTwoAux a b (c :: acc) (d :: rest)

/-- Python `s.split(sep)` for a two-character separator (here `"\n\n"`). -/
def pySplitTwo (a b : Char) (s : PyStr) : List PyStr :=
  pySplitTwoAux a b [] s

/-- Value of a string of decimal digit characters. -/
def digitsVal (s : PyStr) : Nat :=
  s.foldl (fun acc c => acc * 10 + (c.toNat - 48)) 0

/-- Python `int(s)` restricted to plain non-empty digit strings (the only
inputs the script feeds it on the paths modelled here). -/
def pyInt (s : PyStr) : Option Nat :=
  if s ≠ [] ∧ s.all Char.isDigit then some (digitsVal s) else none

/-- Fuel-driven decimal rendering: digits of `n` prepended onto `acc`. -/
def natToCharsAux : Nat → Nat → PyStr → PyStr
  | 0, _, acc => acc
  | fuel + 1, n, acc =>
      let d := Char.ofNat (48 + n % 10)
      if n < 10 then d :: acc else natToCharsAux fuel (n / 10) (d :: acc)

/-- Python `str(n)` for a natural number. -/
def natToChars (n : Nat) : PyStr :=
  natToCharsAux (n + 1) n []

/-- Python `s * k` for a string: `k`-fold repetition. -/
def pyRepeat (s : PyStr) : Nat → PyStr
  | 0 => []
  | k + 1 => s ++ pyRepeat s k

/-! ## `distutils.version.StrictVersion`

`StrictVersion` accepts exactly the strings matched by the anchored regex
`(\d+) \. (\d+) (\. (\d+))? ([ab](\d+))?`; the value is the numeric triple
(missing patch read as 0) together with the optional prerelease pair.
Comparison is lexicographic on the triple; on equal triples a prerelease
sorts below no prerelease, and two prereleases compare by letter then number.
-/

/-- A parsed `StrictVersion`: numeric `(major, minor, patch)` plus optional
prerelease `(letter, number)`. -/
structure SV where
  major : Nat
  minor : Nat
  patch : Nat
  pre : Option (Char × Nat)
deriving DecidableEq, Repr

/-- Parse the optional prerelease suffix `([ab]\d+)?` anchored at the end. -/
def svParsePre : PyStr → Option (Option (Char × Nat))
  | [] => some none
  | c :: r =>
      if c == 'a' || c == 'b' then
        if r.takeWhile Char.isDigit = [] then none
        else if r.dropWhile Char.isDigit = [] then
          some (some (c, digitsVal (r.takeWhile Char.isDigit)))
        else none
      else none

/-- Parse the optional `(\.(\d+))?` patch component followed by the optional
prerelease suffix, anchored at the end. -/
def svParsePatch : PyStr → Option (Nat × Option (Char × Nat))
  | [] => some (0, none)
  | c :: r =>
      if c == '.' then
        if r.takeWhile Char.isDigit = [] then none
        else
          match svParsePre (r.dropWhile Char.isDigit) with
          | none => none
          | some p => some (digitsVal (r.takeWhile Char.isDigit), p)
      else
        match svParsePre (c :: r) with
        | none => none
        | some p => some (0, p)

/-- `StrictVersion(s)`: `some` iff the constructor accepts `s`. -/
def svParse (s : PyStr) : Option SV :=
  if s.takeWhile Char.isDigit = [] then none
  else
    match s.dropWhile Char.isDigit with
    | [] => none
    | c :: r2 =>
        if c == '.' then
          if r2.takeWhile Char.isDigit = [] then none
          else
            match svParsePatch (r2.dropWhile Char.isDigit) with
            | none => none
            | some (p, pre) =>
                some ⟨digitsVal (s.takeWhile Char.isDigit),
                      digitsVal (r2.takeWhile Char.isDigit), p, pre⟩
        else none

/-- Comparison of the optional prerelease pairs: a prerelease sorts below no
prerelease; two prereleases compare by letter then by number. -/
def svPreCmp : Option (Char × Nat) → Option (Char × Nat) → Ordering
  | none, none => .eq
  | some _, none => .lt
  | none, some _ => .gt
  | some (c1, n1), some (c2, n2) =>
      match compare c1 c2 with
      | .eq => compare n1 n2
      | o => o

/-- `StrictVersion` comparison: lexicographic on `(major, minor, patch)`,
then on the prerelease. -/
def svCmp (x y : SV) : Ordering :=
  match compare x.major y.major with
  | .eq =>
      match compare x.minor y.minor with
      | .eq =>
          match compare x.patch y.patch with
          | .eq => svPreCmp x.pre y.pre
          | o => o
      | o => o
  | o => o

/-- `x <= y` on `StrictVersion`s. -/
def svLe (x y : SV) : Bool :=
  svCmp x y ≠ .gt

/-! ## Error taxonomy

Each constructor stands for one `raise` site (or one uncaught exception from a
library call) in `cmd.py`. -/

/-- The distinct failure outcomes of `update_addon` / `update_addons_xml`. -/
inductive UErr where
  /-- line 105: `Could not find that addon path`. -/
  | missingAddonPath
  /-- line 108: the `git submodule update --init` call raised. -/
  | submoduleInitFailed
  /-- line 111: `Missing addon src path`. -/
  | missingSrcPath
  /-- a git command inside `revert` (lines 84-89) raised. -/
  | revertFailed
  /-- a git command at lines 124-127 (fetch/merge/submodule) raised. -/
  | fetchMergeFailed
  /-- the `git checkout` at line 129 raised. -/
  | checkoutFailed
  /-- line 133: `Could not checkout src #...`. -/
  | checkoutMismatch
  /-- line 135: `... is already using #...` (already up to date). -/
  | alreadyUpToDate
  /-- line 140: `cur_version.split('.')` did not unpack into three parts, or
  line 141: `int(minor)` raised `ValueError`. -/
  | autoVersionCrash
  /-- line 143: the `StrictVersion` constructor raised
  `ValueError: invalid version number ...` for the given string. -/
  | invalidVersion (s : PyStr)
  /-- line 144: `Target version ... is not higher than current version ...`. -/
  | versionNotHigher
  /-- line 148: `Target version ... not valid` (more than 3 parts). -/
  | versionTooManyParts
  /-- line 151: `ET.parse(src_xml_path)` raised (file missing or malformed). -/
  | srcXmlUnreadable
  /-- lines 173-181: an asset copy (`icon.png` / `fanart.jpg`) raised. -/
  | assetCopyFailed
  /-- line 186: `shutil.copytree` into the staging directory raised. -/
  | copytreeFailed
  /-- line 187: copying the manifest into the staging directory raised. -/
  | copyManifestFailed
  /-- line 190: `shutil.make_archive` raised. -/
  | archiveFailed
  /-- line 193: copying the `-latest.zip` raised. -/
  | copyLatestFailed
  /-- line 57: `md5(addons_xml_path)` raised because `addons.xml` is absent. -/
  | indexFileMissing
  /-- line 66: `ET.parse` of an addon manifest raised (present but malformed). -/
  | addonManifestMalformed (addon : String)
deriving DecidableEq, Repr

/-! ## Version decision (`cmd.py` lines 139-149)

```
if target_version == 'AUTO':
    major, minor, patch = cur_version.split('.')
    target_version = '{0}.{1}.{2}'.format(major, int(minor)+1, 0)
elif StrictVersion(target_version) <= StrictVersion(cur_version):
    raise Exception("Target version {0} is not higher than current version {1}...")

parts = len(target_version.split('.'))
if parts > 3:
    raise Exception("Target version {0} not valid")
target_version += '.0'*(3 - parts)
```
-/

/-- Lines 139-144: pick the target version (automatic bump, or the explicit
version after the `StrictVersion` comparison against the baseline). -/
def chooseVersion (cur_version target_version : PyStr) : Except UErr PyStr :=
  if target_version = "AUTO".data then
    match pySplitChar '.' cur_version with
    | [major, minor, _patch] =>
        match pyInt minor with
        | some m => .ok (major ++ ".".data ++ natToChars (m + 1) ++ ".".data ++ natToChars 0)
        | none => .error .autoVersionCrash
    | _ => .error .autoVersionCrash
  else
    match svParse target_version with
    | none => .error (.invalidVersion target_version)
    | some tv =>
        match svParse cur_version with
        | none => .error (.invalidVersion cur_version)
        | some cv =>
            if svLe tv cv then .error .versionNotHigher else .ok target_version

/-- Lines 139-149: the whole version decision, including the part-count check
and the zero-padding to three components. -/
def decideVersion (cur_version target_version : PyStr) : Except UErr PyStr :=
  match chooseVersion cur_version target_version with
  | .error e => .error e
  | .ok v =>
      let parts := (pySplitChar '.' v).length
      if parts > 3 then .error .versionTooManyParts
      else .ok (v ++ pyRepeat ".0".data (3 - parts))

/-! ## XML tree model (the slice of `lxml.etree` the script uses)

An element has a tag, an ordered attribute list, optional text, and ordered
children.  `root.find("./extension/[@point='xbmc.addon.metadata']")` and
`node.find(key)` search direct children only and return the first match;
mutating the returned node mutates it in place inside the tree, modelled here
as replacing the first matching child. -/

/-- An XML element. -/
inductive Elem where
  | mk (tag : String) (attrs : List (String × String)) (text : Option String)
      (children : List Elem)

/-- The element's tag. -/
def Elem.tag : Elem → String
  | .mk t _ _ _ => t

/-- The element's attribute list. -/
def Elem.attrs : Elem → List (String × String)
  | .mk _ a _ _ => a

/-- The element's text. -/
def Elem.text : Elem → Option String
  | .mk _ _ x _ => x

/-- The element's children. -/
def Elem.children : Elem → List Elem
  | .mk _ _ _ c => c

/-- Replace the element's text. -/
def Elem.withText (e : Elem) (x : Option String) : Elem :=
  .mk e.tag e.attrs x e.children

/-- Replace the element's children. -/
def Elem.withChildren (e : Elem) (c : List Elem) : Elem :=
  .mk e.tag e.attrs e.text c

/-- First value bound to key `k` in an attribute list (`attrib[k]`). -/
def findAttr (attrs : List (String × String)) (k : String) : Option String :=
  (attrs.find? (fun p => p.1 == k)).map (·.2)

/-- Bind key `k` to `v` in an attribute list: replace the first binding of
`k`, or append one (Python dict update semantics for one key). -/
def setAttr (k v : String) : List (String × String) → List (String × String)
  | [] => [(k, v)]
  | (k', v') :: rest => if k' == k then (k, v) :: rest else (k', v') :: setAttr k v rest

/-- `root.attrib.update({'version': tv, 'provider-name': PROVIDER})`
(lines 153-156). -/
def setRootAttrs (tv provider : String) (e : Elem) : Elem :=
  .mk e.tag (setAttr "provider-name" provider (setAttr "version" tv e.attrs)) e.text e.children

/-- Rewrite the first child satisfying `p` using `f`; leave the rest alone. -/
def updateFirst (p : Elem → Bool) (f : Elem → Elem) : List Elem → List Elem
  | [] => []
  | c :: cs => if p c then f c :: cs else c :: updateFirst p f cs

/-- Python truth test `not _node.text`: no text, or the empty string.
(A whitespace-only string is truthy in Python, so it does NOT count.) -/
def textFalsy : Option String → Bool
  | none => true
  | some t => t == ""

/-- `if _node is not None and not _node.text: _node.text = value`
applied to the first child tagged `key` (lines 165-167). -/
def fillKey (key value : String) (e : Elem) : Elem :=
  e.withChildren (updateFirst (fun c => c.tag == key) (fun c => if textFalsy c.text then c.withText (some value) else c) e.children)

/-- Does `e` match `./extension/[@point='xbmc.addon.metadata']`? -/
def isMetadataExt (e : Elem) : Bool :=
  e.tag == "extension" && findAttr e.attrs "point" == some "xbmc.addon.metadata"

/-- Lines 162-167: find the metadata extension node among the root's direct
children; if present, run the default-fill for every `(key, value)` pair of
`default_meta` in order; if absent, do nothing. -/
def fillMetadataDefaults (defaults : List (String × String)) (root : Elem) : Elem :=
  if (root.children.find? isMetadataExt).isSome then
    root.withChildren (updateFirst isMetadataExt
      (fun m => defaults.foldl (fun acc kv => fillKey kv.1 kv.2 acc) m) root.children)
  else root

/-- The `default_meta` table (lines 15-18) before `news` is added. -/
def default_meta_base : List (String × String) :=
  [("license", "GNU General Public License, v2"),
   ("website", "https://www.matthuisman.nz")]

/-! ## Changelog extraction (`cmd.py` lines 158-160)

```
comp    = '{0}..{1}'.format(cur_commit, target_commit) if cur_commit else '-1'
changes = "- " + "\n- ".join(check_output(['git', ..., 'log', '-n', str(LOG_CHANGES),
                                           '--pretty=%B', comp])
                             .decode('utf-8').strip().split('\n\n'))
```

`git log --pretty=%B` prints, for each commit of the range (most recent
first, at most `-n` many), the raw message followed by a terminating newline;
a message stored with a trailing newline thus contributes `msg ++ "\n\n"` to
the output.  Paragraphs inside one message are separated by blank lines, i.e.
a message is its paragraph list interleaved with `"\n\n"`. -/

/-- `LOG_CHANGES` (line 26). -/
def LOG_CHANGES : Nat := 5

/-- The commit-range argument handed to `git log` (line 158): the string
`"<oldCommit>..<newCommit>"` when a baseline commit is known, else `"-1"`. -/
def compRange (cur_commit : Option PyStr) (target_commit : PyStr) : PyStr :=
  match cur_commit with
  | some c => c ++ "..".data ++ target_commit
  | none => "-1".data

/-- Model of the raw `git log --pretty=%B` output for a list of commit
messages (most recent first): each message followed by a blank-line
terminator. -/
def gitLogRaw (msgs : List PyStr) : PyStr :=
  msgs.foldr (fun m acc => m ++ "\n\n".data ++ acc) []

/-- Model of the raw log output for messages given as paragraph lists:
paragraphs of one message are separated by blank lines. -/
def gitLogRawP (msgs : List (List PyStr)) : PyStr :=
  gitLogRaw (msgs.map (pyJoin "\n\n".data))

/-- Line 159: the changelog string built from the raw log output. -/
def changesOf (raw : PyStr) : PyStr :=
  "- ".data ++ pyJoin "\n- ".data (pySplitTwo '\n' '\n' (pyStrip raw))

/-! ## The `update_addon` run (`cmd.py` lines 91-195)

The external collaborators (git, filesystem) are modelled by an environment
recording the outcome of each call in program order.  `update_addon` then is
a pure function from that environment (plus the CLI arguments) to a record of
what it raised and what it wrote. -/

/-- `PROVIDER` (line 20). -/
def PROVIDER : String := "MattHuisman.nz"

/-- Outcomes of the external calls made by one `update_addon` run, in program
order.  A `Bool` field is `true` iff the corresponding command/call did not
raise.  `git rev-parse HEAD` (line 131) is taken as infallible in a live
checkout; its printed commit id is `resolved`. -/
structure Env where
  /-- line 104: does the addon directory exist? -/
  addonPathExists : Bool
  /-- line 107: does `src/addon.xml` exist before any submodule init? -/
  srcXmlExists : Bool
  /-- line 108: did `git submodule update --init src` succeed (consulted only
  when `srcXmlExists` is false)? -/
  submoduleInitOk : Bool
  /-- line 110: does the `src` directory exist (after the optional init)? -/
  srcPathExists : Bool
  /-- line 113: did all git commands inside `revert` succeed? -/
  revertOk : Bool
  /-- lines 115-122: `some (version-attribute, HEAD-commit)` when `addon.xml`
  is readable, `none` when reading raised `OSError` (the only exception the
  script catches there), making the baseline `('0.0.0', None)`. -/
  baseline : Option (PyStr × PyStr)
  /-- lines 124-127: did fetch, merge and the submodule commands succeed? -/
  fetchMergeOk : Bool
  /-- line 129: did `git checkout target_commit` succeed (consulted only when
  an explicit commit was requested)? -/
  checkoutOk : Bool
  /-- line 131: the commit id printed by `git rev-parse HEAD`. -/
  resolved : PyStr
  /-- line 151: the parsed root of `src/addon.xml`, or `none` if `ET.parse`
  raised (file missing or malformed). -/
  srcXml : Option Elem
  /-- line 159: the raw output of `git log -n 5 --pretty=%B <comp>`. -/
  logRaw : PyStr
  /-- line 160: today's date rendered as `%d/%m/%Y`. -/
  today : String
  /-- lines 173-181: did the icon/fanart remove/copy calls all succeed? -/
  assetsOk : Bool
  /-- does the staging directory exist before the run? -/
  tmpInitial : Bool
  /-- line 186: did `shutil.copytree` into the staging directory succeed? -/
  copytreeOk : Bool
  /-- line 187: did copying `addon.xml` into the staging directory succeed? -/
  copyXmlOk : Bool
  /-- line 190: did `shutil.make_archive` succeed? -/
  archiveOk : Bool
  /-- line 193: did copying to `<addon>-latest.zip` succeed? -/
  copyLatestOk : Bool

/-- What one `update_addon` run raised and wrote. -/
structure RunOut where
  /-- the exception the run raised, if any. -/
  err : Option UErr
  /-- the tree written over `addon.xml` at line 170, if that write happened. -/
  manifestWrite : Option Elem
  /-- the commit-range argument passed to `git log`, if the run got there. -/
  gitLogComp : Option PyStr
  /-- does the staging directory exist after the run? -/
  tmpExists : Bool
  /-- was `<addon>-<version>.zip` produced? -/
  zipWritten : Bool
  /-- was `<addon>-latest.zip` produced/refreshed? -/
  latestWritten : Bool

/-- Everything the write phase needs, as established by lines 91-151. -/
structure DecCtx where
  /-- the baseline version string (line 118 / line 121). -/
  curVersion : PyStr
  /-- the baseline commit, if one was readable (line 119 / line 122). -/
  curCommit : Option PyStr
  /-- the decided, padded target version (lines 139-149). -/
  tv : PyStr
  /-- the 7-character release commit id (line 137). -/
  tcShort : PyStr
  /-- the parsed root of `src/addon.xml` (line 151). -/
  root0 : Elem

/-- Lines 92-95: a missing or empty CLI argument becomes the sentinel
(`'AUTO'` for the version, `'HEAD'` for the commit); Python's `if not x`
treats both `None` and `''` as falsy. -/
def normArg (sentinel : PyStr) : Option PyStr → PyStr
  | none => sentinel
  | some v => if v = [] then sentinel else v

/-- The baseline version read at lines 115-122: the manifest's `version`
attribute, or `'0.0.0'` when the read raised `OSError`. -/
def baselineVersion (env : Env) : PyStr :=
  match env.baseline with
  | some p => p.1
  | none => "0.0.0".data

/-- The baseline commit read at lines 115-122: `None` when the read raised
`OSError`. -/
def baselineCommit (env : Env) : Option PyStr :=
  match env.baseline with
  | some p => some p.2
  | none => none

/-- Lines 115-151 of `update_addon`: from the baseline read to the parse of
the embedded checkout's manifest, given the already-normalized CLI
arguments. -/
def phase1core (env : Env) (target_version target_commit : PyStr) : Except UErr DecCtx :=
  if env.fetchMergeOk then
    if target_commit ≠ "HEAD".data ∧ ¬env.checkoutOk then .error .checkoutFailed
    else
      let commit := env.resolved
      if target_commit ≠ "HEAD".data ∧ target_commit ≠ commit.take target_commit.length then
        .error .checkoutMismatch
      else if target_version = "AUTO".data ∧ baselineCommit env = some commit then
        .error .alreadyUpToDate
      else
        match decideVersion (baselineVersion env) target_version with
        | .error e => .error e
        | .ok tv =>
            match env.srcXml with
            | none => .error .srcXmlUnreadable
            | some root0 =>
                .ok ⟨baselineVersion env, baselineCommit env, tv, commit.take 7, root0⟩
  else .error .fetchMergeFailed

/-- Lines 91-151 of `update_addon`: everything before the first write.
`tvIn`/`tcIn` are the CLI arguments. -/
def phase1 (env : Env) (tvIn tcIn : Option PyStr) : Except UErr DecCtx :=
  if env.addonPathExists then
    if env.srcXmlExists || env.submoduleInitOk then
      if env.srcPathExists then
        if env.revertOk then
          phase1core env (normArg "AUTO".data tvIn) (normArg "HEAD".data tcIn)
        else .error .revertFailed
      else .error .missingSrcPath
    else .error .submoduleInitFailed
  else .error .missingAddonPath

/-- Lines 153-195 of `update_addon`: attribute update, changelog, metadata
defaults, the manifest write, asset copies, staging and archiving.  The
staging directory is removed again only at line 191, which runs only when
lines 186-190 all succeeded — there is no `try/finally` around them. -/
def phase2 (env : Env) (ctx : DecCtx) : RunOut :=
  let root1 := setRootAttrs (String.mk ctx.tv) PROVIDER ctx.root0
  let comp := compRange ctx.curCommit ctx.tcShort
  let changes := changesOf env.logRaw
  let news := String.mk (ctx.tv ++ " #".data ++ ctx.tcShort ++ " (".data
      ++ env.today.data ++ ")\n".data ++ changes)
  let defaults := default_meta_base ++ [("news", news)]
  let root2 := fillMetadataDefaults defaults root1
  if env.assetsOk then
    -- line 184: rmtree(tmp_dir, ignore_errors=True); the directory is gone.
    if env.copytreeOk then
      if env.copyXmlOk then
        if env.archiveOk then
          -- line 191: rmtree(tmp_dir, ignore_errors=True); gone again.
          if env.copyLatestOk then
            ⟨none, some root2, some comp, false, true, true⟩
          else ⟨some .copyLatestFailed, some root2, some comp, false, true, false⟩
        else ⟨some .archiveFailed, some root2, some comp, true, false, false⟩
      else ⟨some .copyManifestFailed, some root2, some comp, true, false, false⟩
    else ⟨some .copytreeFailed, some root2, some comp, true, false, false⟩
  else ⟨some .assetCopyFailed, some root2, some comp, env.tmpInitial, false, false⟩

/-- The whole `update_addon` run. -/
def update_addon (env : Env) (tvIn tcIn : Option PyStr) : RunOut :=
  match phase1 env tvIn tcIn with
  | .error e => ⟨some e, none, none, env.tmpInitial, false, false⟩
  | .ok ctx => phase2 env ctx

/-! ## Index rebuild (`cmd.py` lines 36-47 and 49-78) -/

/-- `ADDONS_XML` (line 24). -/
def ADDONS_XML : String := "addons.xml"

/-- One entry of `os.listdir(ROOT_DIR)` together with its `os.path.isdir`
answer. -/
structure DirEnt where
  name : String
  isDir : Bool

/-- `get_addons` (lines 36-47): every immediate entry of the repository root,
in listing order, that is a directory and is not `.git`. -/
def get_addons (listing : List DirEnt) : List String :=
  (listing.filter (fun e => e.name ≠ ".git" && e.isDir)).map (·.name)

/-- The state of one addon's `addon.xml` as `update_addons_xml` sees it. -/
inductive ManifestFile where
  /-- `os.path.exists(addon_xml_path)` is false: the addon is skipped. -/
  | absent
  /-- the file exists but `ET.parse` raises on it. -/
  | malformed
  /-- the file exists and parses to this root. -/
  | parsed (root : Elem)

/-- The loop of lines 61-67: collect the manifest roots of the given addons
in order, skipping absent manifests, failing on the first malformed one. -/
def collectRoots (manifest : String → ManifestFile) : List String → Except UErr (List Elem)
  | [] => .ok []
  | a :: rest =>
      match manifest a with
      | .absent => collectRoots manifest rest
      | .malformed => .error (.addonManifestMalformed a)
      | .parsed r =>
          match collectRoots manifest rest with
          | .error e => .error e
          | .ok rs => .ok (r :: rs)

/-- The newline translation performed by `open(..., newline='\r\n')`:
every `'\n'` in the written text becomes `'\r\n'` on disk. -/
def crlf : PyStr → PyStr
  | [] => []
  | c :: cs => if c == '\n' then '\r' :: '\n' :: crlf cs else c :: crlf cs

/-- The XML declaration prepended at line 69. -/
def xmlHeader : String :=
  "<?xml version=\"1.0\" encoding=\"UTF-8\" standalone=\"yes\"?>\n"

/-- External collaborators of `update_addons_xml`: the directory listing, the
per-addon manifest state, whether the old index file exists, the hash of a
byte string (`md5`, lines 29-34) and the serializer (`ET.tostring`). -/
structure XEnv where
  listing : List DirEnt
  addonXml : String → ManifestFile
  oldIndexExists : Bool
  md5hex : PyStr → String
  serialize : Elem → String

/-- What one `update_addons_xml` run raised and wrote: the writes are
`(path, content)` pairs in program order. -/
structure XRun where
  err : Option UErr
  written : List (String × String)
  children : List Elem

/-- `update_addons_xml` (lines 49-78): hash the existing index file (raising
if it is absent), rebuild a fresh `<addons>` aggregate from every addon
directory's manifest root, write it, hash the written bytes, and write the
`<hex> addons.xml` sidecar. -/
def update_addons_xml (env : XEnv) : XRun :=
  if env.oldIndexExists then
    match collectRoots env.addonXml (get_addons env.listing) with
    | .error e => ⟨some e, [], []⟩
    | .ok roots =>
        let agg := Elem.mk "addons" [] none roots
        let text := xmlHeader ++ env.serialize agg
        let disk := String.mk (crlf text.data)
        let sidecar := env.md5hex disk.data ++ " " ++ ADDONS_XML
        ⟨none, [(ADDONS_XML, disk), (ADDONS_XML ++ ".md5", sidecar)], roots⟩
  else ⟨some .indexFileMissing, [], []⟩

/-! ## Lemmas about the Python string primitives -/

@[simp] theorem pyJoin_nil (sep : PyStr) : pyJoin sep [] = [] := rfl

@[simp] theorem pyJoin_single (sep : PyStr) (p : PyStr) : pyJoin sep [p] = p := rfl

theorem pyJoin_cons₂ (sep p q : PyStr) (rest : List PyStr) :
    pyJoin sep (p :: q :: rest) = p ++ sep ++ pyJoin sep (q :: rest) := rfl

theorem pyJoin_append (sep : PyStr) (xs ys : List PyStr) (hx : xs ≠ []) (hy : ys ≠ []) :
    pyJoin sep (xs ++ ys) = pyJoin sep xs ++ sep ++ pyJoin sep ys := by
  induction xs with
  | nil => exact absurd rfl hx
  | cons x xs ih =>
      cases xs with
      | nil =>
          cases ys with
          | nil => exact absurd rfl hy
          | cons y ys => simp [pyJoin_cons₂]
      | cons x' xs' =>
          have ih' := ih (by simp)
          simp only [List.cons_append] at ih' ⊢
          rw [pyJoin_cons₂, pyJoin_cons₂, ih']
          simp [List.append_assoc]

theorem pySplitCharAux_notMem (sep : Char) :
    ∀ (l acc : PyStr), (∀ c ∈ l, (c == sep) = false) →
      pySplitCharAux sep acc l = [acc.reverse ++ l]
  | [], acc, _ => by simp [pySplitCharAux]
  | c :: cs, acc, h => by
      have hc : (c == sep) = false := h c (by simp)
      rw [pySplitCharAux, hc]
      simp only [Bool.false_eq_true, if_false]
      rw [pySplitCharAux_notMem sep cs (c :: acc) (fun x hx => h x (by simp [hx]))]
      simp

theorem pySplitCharAux_boundary (sep : Char) :
    ∀ (p acc tail : PyStr), (∀ c ∈ p, (c == sep) = false) →
      pySplitCharAux sep acc (p ++ sep :: tail) =
        (acc.reverse ++ p) :: pySplitCharAux sep [] tail
  | [], acc, tail, _ => by
      rw [List.nil_append, pySplitCharAux]
      simp
  | c :: p', acc, tail, h => by
      have hc : (c == sep) = false := h c (by simp)
      rw [List.cons_append, pySplitCharAux, hc]
      simp only [Bool.false_eq_true, if_false]
      rw [pySplitCharAux_boundary sep p' (c :: acc) tail (fun x hx => h x (by simp [hx]))]
      simp

/-- Splitting on a one-character separator inverts joining, as long as no
part contains the separator. -/
theorem pySplitChar_pyJoin (sep : Char) :
    ∀ (parts : List PyStr), parts ≠ [] →
      (∀ p ∈ parts, ∀ c ∈ p, (c == sep) = false) →
      pySplitChar sep (pyJoin [sep] parts) = parts
  | [], h, _ => absurd rfl h
  | [p], _, h => by
      simp only [pyJoin_single, pySplitChar]
      rw [pySplitCharAux_notMem sep p [] (h p (by simp))]
      simp
  | p :: q :: rest, _, h => by
      simp only [pyJoin_cons₂, pySplitChar]
      have hshape : p ++ [sep] ++ pyJoin [sep] (q :: rest) = p ++ sep :: pyJoin [sep] (q :: rest) := by
        simp
      rw [hshape, pySplitCharAux_boundary sep p [] _ (h p (by simp))]
      have ih := pySplitChar_pyJoin sep (q :: rest) (by simp)
        (fun x hx => h x (by simp [hx]))
      simp only [pySplitChar] at ih
      rw [ih]
      simp

/-- The number of chunks returned by a one-character split: one more than the
number of separator occurrences. -/
theorem pySplitCharAux_length (sep : Char) :
    ∀ (l acc : PyStr), (pySplitCharAux sep acc l).length = l.count sep + 1
  | [], acc => by simp [pySplitCharAux]
  | c :: cs, acc => by
      rw [pySplitCharAux]
      by_cases hc : c = sep
      · have hbc : (c == sep) = true := by simp [hc]
        rw [hbc]
        simp only [if_true, List.length_cons]
        rw [pySplitCharAux_length sep cs []]
        simp [List.count_cons, hc]
      · have hbc : (c == sep) = false := by simp [hc]
        rw [hbc]
        simp only [Bool.false_eq_true, if_false]
        rw [pySplitCharAux_length sep cs (c :: acc)]
        simp [List.count_cons, hc]

theorem pySplitChar_length (sep : Char) (l : PyStr) :
    (pySplitChar sep l).length = l.count sep + 1 :=
  pySplitCharAux_length sep l []

theorem pySplitTwoAux_nil (a b : Char) (acc : PyStr) :
    pySplitTwoAux a b acc [] = [acc.reverse] := rfl

theorem pySplitTwoAux_one (a b c : Char) (acc : PyStr) :
    pySplitTwoAux a b acc [c] = [(c :: acc).reverse] := rfl

theorem pySplitTwoAux_cons₂ (a b x y : Char) (rest acc : PyStr) :
    pySplitTwoAux a b acc (x :: y :: rest) =
      if x == a && y == b then acc.reverse :: pySplitTwoAux a b [] rest
      else pySplitTwoAux a b (x :: acc) (y :: rest) := rfl

theorem pySplitTwoAux_notMem (a b : Char) :
    ∀ (l acc : PyStr), (∀ c ∈ l, (c == a) = false) →
      pySplitTwoAux a b acc l = [acc.reverse ++ l]
  | [], acc, _ => by simp [pySplitTwoAux_nil]
  | [c], acc, _ => by simp [pySplitTwoAux_one]
  | c :: d :: rest, acc, h => by
      have hc : (c == a) = false := h c (by simp)
      rw [pySplitTwoAux_cons₂, hc]
      simp only [Bool.false_and, Bool.false_eq_true, if_false]
      rw [pySplitTwoAux_notMem a b (d :: rest) (c :: acc) (fun x hx => h x (by simp [hx]))]
      simp

theorem pySplitTwoAux_boundary (a b : Char) :
    ∀ (p acc tail : PyStr), (∀ c ∈ p, (c == a) = false) →
      pySplitTwoAux a b acc (p ++ a :: b :: tail) =
        (acc.reverse ++ p) :: pySplitTwoAux a b [] tail
  | [], acc, tail, _ => by
      rw [List.nil_append, pySplitTwoAux_cons₂]
      simp
  | c :: p', acc, tail, h => by
      have hc : (c == a) = false := h c (by simp)
      have hstep : c :: p' ++ a :: b :: tail = c :: (p' ++ a :: b :: tail) := by simp
      rw [hstep]
      have htail : p' ++ a :: b :: tail ≠ [] := by simp
      obtain ⟨d, rest, hdr⟩ : ∃ d rest, p' ++ a :: b :: tail = d :: rest := by
        cases hpt : p' ++ a :: b :: tail with
        | nil => exact absurd hpt htail
        | cons d rest => exact ⟨d, rest, rfl⟩
      rw [hdr, pySplitTwoAux_cons₂, hc]
      simp only [Bool.false_and, Bool.false_eq_true, if_false]
      rw [← hdr]
      rw [pySplitTwoAux_boundary a b p' (c :: acc) tail (fun x hx => h x (by simp [hx]))]
      simp

/-- Splitting on a two-character separator inverts joining, as long as no
part contains the separator's first character. -/
theorem pySplitTwo_pyJoin (a b : Char) :
    ∀ (parts : List PyStr), parts ≠ [] →
      (∀ p ∈ parts, ∀ c ∈ p, (c == a) = false) →
      pySplitTwo a b (pyJoin [a, b] parts) = parts
  | [], h, _ => absurd rfl h
  | [p], _, h => by
      simp only [pyJoin_single, pySplitTwo]
      rw [pySplitTwoAux_notMem a b p [] (h p (by simp))]
      simp
  | p :: q :: rest, _, h => by
      simp only [pyJoin_cons₂, pySplitTwo]
      have hshape : p ++ [a, b] ++ pyJoin [a, b] (q :: rest) =
          p ++ a :: b :: pyJoin [a, b] (q :: rest) := by simp
      rw [hshape, pySplitTwoAux_boundary a b p [] _ (h p (by simp))]
      have ih := pySplitTwo_pyJoin a b (q :: rest) (by simp)
        (fun x hx => h x (by simp [hx]))
      simp only [pySplitTwo] at ih
      rw [ih]
      simp

/-- A string neither starts nor ends with Python whitespace. -/
def noEdgeSpace (s : PyStr) : Prop :=
  s.dropWhile isPySpace = s ∧ s.reverse.dropWhile isPySpace = s.reverse

/-- Stripping a clean string followed by the blank-line terminator recovers
the string. -/
theorem pyStrip_append_blank (s : PyStr) (h : noEdgeSpace s) :
    pyStrip (s ++ ['\n', '\n']) = s := by
  obtain ⟨h1, h2⟩ := h
  cases s with
  | nil => decide
  | cons c cs =>
      have hc : isPySpace c = false := by
        by_contra hcc
        have hct : isPySpace c = true := by revert hcc; cases isPySpace c <;> simp
        simp [List.dropWhile_cons, hct] at h1
        have hlen := congrArg List.length h1
        have hle := (List.dropWhile_sublist (l := cs) isPySpace).length_le
        simp at hlen
        omega
      have hd1 : ((c :: cs) ++ ['\n', '\n']).dropWhile isPySpace = (c :: cs) ++ ['\n', '\n'] := by
        simp [List.dropWhile_cons, hc]
      unfold pyStrip
      rw [hd1]
      have hrev : ((c :: cs) ++ ['\n', '\n']).reverse = '\n' :: '\n' :: (c :: cs).reverse := by
        simp
      rw [hrev]
      have hnl : isPySpace '\n' = true := by decide
      rw [List.dropWhile_cons, hnl]
      simp only [if_true]
      rw [List.dropWhile_cons, hnl]
      simp only [if_true]
      rw [h2]
      simp

/-- A nonempty, newline-free paragraph that neither starts nor ends with
whitespace: the shape every commit-message paragraph is assumed to have. -/
def goodPara (p : PyStr) : Bool :=
  !p.isEmpty && p.all (fun c => !(c == '\n'))
    && !isPySpace p.headI && !isPySpace p.getLastI

theorem goodPara_ne_nil {p : PyStr} (h : goodPara p = true) : p ≠ [] := by
  simp [goodPara] at h
  intro hp
  subst hp
  simp at h

theorem goodPara_no_newline {p : PyStr} (h : goodPara p = true) :
    ∀ c ∈ p, (c == '\n') = false := by
  simp only [goodPara, Bool.and_eq_true, List.all_eq_true] at h
  intro c hc
  have := h.1.1.2 c hc
  revert this
  cases c == '\n' <;> simp

theorem goodPara_head {p : PyStr} (h : goodPara p = true) :
    isPySpace p.headI = false := by
  simp only [goodPara, Bool.and_eq_true] at h
  have := h.1.2
  revert this
  cases isPySpace p.headI <;> simp

theorem goodPara_last {p : PyStr} (h : goodPara p = true) :
    isPySpace p.getLastI = false := by
  simp only [goodPara, Bool.and_eq_true] at h
  have := h.2
  revert this
  cases isPySpace p.getLastI <;> simp

theorem pyJoin_good_head (sep : PyStr) :
    ∀ (parts : List PyStr), parts ≠ [] → (∀ p ∈ parts, goodPara p = true) →
      ∃ c r, pyJoin sep parts = c :: r ∧ isPySpace c = false
  | [], h, _ => absurd rfl h
  | p :: ps, _, h => by
      have hp := h p (by simp)
      obtain ⟨c, p', rfl⟩ : ∃ c p', p = c :: p' := by
        cases p with
        | nil => exact absurd rfl (goodPara_ne_nil hp)
        | cons c p' => exact ⟨c, p', rfl⟩
      have hc : isPySpace c = false := by
        have := goodPara_head hp
        simpa using this
      cases ps with
      | nil => exact ⟨c, p', by simp, hc⟩
      | cons q rest =>
          refine ⟨c, p' ++ sep ++ pyJoin sep (q :: rest), ?_, hc⟩
          rw [pyJoin_cons₂]
          simp

theorem pyJoin_good_rev (sep : PyStr) :
    ∀ (parts : List PyStr), parts ≠ [] → (∀ p ∈ parts, goodPara p = true) →
      ∃ d r, (pyJoin sep parts).reverse = d :: r ∧ isPySpace d = false
  | [], h, _ => absurd rfl h
  | [p], _, h => by
      have hp := h p (by simp)
      obtain ⟨d, r, hdr⟩ : ∃ d r, p.reverse = d :: r := by
        cases hr : p.reverse with
        | nil =>
            exact absurd (by simpa using congrArg List.reverse hr) (goodPara_ne_nil hp)
        | cons d r => exact ⟨d, r, rfl⟩
      have hd : d = p.getLastI := by
        have h1 : p.reverse.head? = some d := by rw [hdr]; rfl
        rw [List.head?_reverse] at h1
        rw [List.getLastI_eq_getLast?, h1]
      refine ⟨d, r, by simpa using hdr, ?_⟩
      rw [hd]
      exact goodPara_last hp
  | p :: q :: rest, _, h => by
      obtain ⟨d, r, hdr, hd⟩ := pyJoin_good_rev sep (q :: rest) (by simp)
        (fun x hx => h x (by simp [hx]))
      refine ⟨d, r ++ (sep.reverse ++ p.reverse), ?_, hd⟩
      rw [pyJoin_cons₂]
      simp only [List.reverse_append, List.append_assoc]
      rw [hdr]
      simp

theorem noEdgeSpace_pyJoin_good (sep : PyStr) (parts : List PyStr) (hne : parts ≠ [])
    (h : ∀ p ∈ parts, goodPara p = true) : noEdgeSpace (pyJoin sep parts) := by
  constructor
  · obtain ⟨c, r, heq, hc⟩ := pyJoin_good_head sep parts hne h
    rw [heq, List.dropWhile_cons, hc]
    simp
  · obtain ⟨d, r, heq, hd⟩ := pyJoin_good_rev sep parts hne h
    rw [heq, List.dropWhile_cons, hd]
    simp

theorem gitLogRaw_eq :
    ∀ (ms : List PyStr), ms ≠ [] →
      gitLogRaw ms = pyJoin ['\n', '\n'] ms ++ ['\n', '\n']
  | [], h => absurd rfl h
  | [m], _ => by simp [gitLogRaw]
  | m :: m' :: rest, _ => by
      have ih := gitLogRaw_eq (m' :: rest) (by simp)
      show m ++ "\n\n".data ++ gitLogRaw (m' :: rest) = _
      rw [ih, pyJoin_cons₂]
      simp [List.append_assoc]

theorem pyJoin_map_flatten (sep : PyStr) :
    ∀ (msgs : List (List PyStr)), msgs ≠ [] → (∀ m ∈ msgs, m ≠ []) →
      pyJoin sep (msgs.map (pyJoin sep)) = pyJoin sep msgs.flatten
  | [], h, _ => absurd rfl h
  | [m], _, _ => by simp
  | m :: m' :: rest, _, hm => by
      have ih := pyJoin_map_flatten sep (m' :: rest) (by simp)
        (fun x hx => hm x (by simp [hx]))
      have hflat : (m' :: rest).flatten ≠ [] := by
        rw [ne_eq, List.flatten_eq_nil_iff]
        push_neg
        exact ⟨m', by simp, hm m' (by simp)⟩
      simp only [List.map_cons] at ih
      simp only [List.map_cons, pyJoin_cons₂]
      rw [ih]
      rw [show (m :: m' :: rest).flatten = m ++ (m' :: rest).flatten from rfl]
      rw [pyJoin_append sep m ((m' :: rest).flatten) (hm m (by simp)) hflat]

/-- The changelog pipeline, applied to the log output of messages given as
lists of newline-free paragraphs, renders one `- ` bullet per PARAGRAPH of
the concatenated messages. -/
theorem changesOf_gitLogRawP (msgs : List (List PyStr)) (h : msgs ≠ [])
    (hm : ∀ m ∈ msgs, m ≠ [])
    (hp : ∀ m ∈ msgs, ∀ p ∈ m, goodPara p = true) :
    changesOf (gitLogRawP msgs) = "- ".data ++ pyJoin "\n- ".data msgs.flatten := by
  have hmap_ne : msgs.map (pyJoin "\n\n".data) ≠ [] := by simpa using h
  have hflat_ne : msgs.flatten ≠ [] := by
    rw [ne_eq, List.flatten_eq_nil_iff]
    push_neg
    cases msgs with
    | nil => exact absurd rfl h
    | cons m ms => exact ⟨m, by simp, hm m (by simp)⟩
  have hgood : ∀ p ∈ msgs.flatten, goodPara p = true := by
    intro p hp'
    rw [List.mem_flatten] at hp'
    obtain ⟨m, hm', hpm⟩ := hp'
    exact hp m hm' p hpm
  have hnn : "\n\n".data = ['\n', '\n'] := rfl
  unfold gitLogRawP changesOf
  rw [gitLogRaw_eq _ hmap_ne]
  rw [show msgs.map (pyJoin "\n\n".data) = msgs.map (pyJoin ['\n', '\n']) from rfl]
  rw [pyJoin_map_flatten ['\n', '\n'] msgs h hm]
  rw [pyStrip_append_blank _ (noEdgeSpace_pyJoin_good ['\n', '\n'] msgs.flatten hflat_ne hgood)]
  rw [show pySplitTwo '\n' '\n' (pyJoin ['\n', '\n'] msgs.flatten)
        = pySplitTwo '\n' '\n' (pyJoin ['\n', '\n'] msgs.flatten) from rfl]
  rw [pySplitTwo_pyJoin '\n' '\n' msgs.flatten hflat_ne
    (fun p hp' c hc => goodPara_no_newline (hgood p hp') c hc)]

/-! ## Digit and dot-count lemmas -/

theorem digit_not_beq {c x : Char} (h : c.isDigit = true) (hx : x.isDigit = false) :
    (c == x) = false := by
  cases hbc : c == x
  · rfl
  · exfalso
    have : c = x := by simpa using hbc
    rw [this] at h
    rw [h] at hx
    cases hx

theorem count_dot_takeWhile_digits (l : PyStr) :
    (l.takeWhile Char.isDigit).count '.' = 0 := by
  rw [List.count_eq_zero]
  intro hmem
  have := List.mem_takeWhile_imp hmem
  exact absurd this (by decide)

theorem svParsePre_count {l : PyStr} {x : Option (Char × Nat)}
    (h : svParsePre l = some x) : l.count '.' = 0 := by
  cases l with
  | nil => simp
  | cons c r =>
      simp only [svParsePre] at h
      by_cases hab : (c == 'a' || c == 'b') = true
      · rw [if_pos hab] at h
        by_cases hds : r.takeWhile Char.isDigit = []
        · rw [if_pos hds] at h
          cases h
        · rw [if_neg hds] at h
          by_cases hrest : r.dropWhile Char.isDigit = []
          · have hr : r = r.takeWhile Char.isDigit := by
              conv_lhs => rw [← List.takeWhile_append_dropWhile (p := Char.isDigit) (l := r)]
              rw [hrest, List.append_nil]
            have hcdot : (c == '.') = false := by
              rcases (by simpa using hab : c = 'a' ∨ c = 'b') with h' | h' <;> simp [h']
            rw [List.count_cons, hcdot]
            simp only [Bool.false_eq_true, if_false, Nat.add_zero]
            rw [hr]
            exact count_dot_takeWhile_digits r
          · rw [if_neg hrest] at h
            cases h
      · rw [if_neg hab] at h
        cases h

theorem svParsePatch_count {l : PyStr} {x : Nat × Option (Char × Nat)}
    (h : svParsePatch l = some x) : l.count '.' ≤ 1 := by
  cases l with
  | nil => simp
  | cons c r =>
      simp only [svParsePatch] at h
      by_cases hdot : (c == '.') = true
      · rw [if_pos hdot] at h
        by_cases hds : r.takeWhile Char.isDigit = []
        · rw [if_pos hds] at h
          cases h
        · rw [if_neg hds] at h
          rcases hpre : svParsePre (r.dropWhile Char.isDigit) with _ | p
          · rw [hpre] at h
            cases h
          · have hr : r.count '.' = 0 := by
              conv_lhs => rw [← List.takeWhile_append_dropWhile (p := Char.isDigit) (l := r)]
              rw [List.count_append, count_dot_takeWhile_digits r, svParsePre_count hpre]
            rw [List.count_cons, hr]
            split <;> omega
      · rw [if_neg hdot] at h
        rcases hpre : svParsePre (c :: r) with _ | p
        · rw [hpre] at h
          cases h
        · have := svParsePre_count hpre
          omega

/-- A string accepted by `StrictVersion` contains at most two dots. -/
theorem svParse_count {s : PyStr} {v : SV} (h : svParse s = some v) :
    s.count '.' ≤ 2 := by
  simp only [svParse] at h
  by_cases hds1 : s.takeWhile Char.isDigit = []
  · rw [if_pos hds1] at h
    cases h
  · rw [if_neg hds1] at h
    rcases hdrop : s.dropWhile Char.isDigit with _ | ⟨c, r2⟩
    · rw [hdrop] at h
      cases h
    · rw [hdrop] at h
      dsimp only at h
      by_cases hdot : (c == '.') = true
      · rw [if_pos hdot] at h
        by_cases hds2 : r2.takeWhile Char.isDigit = []
        · rw [if_pos hds2] at h
          cases h
        · rw [if_neg hds2] at h
          rcases hpat : svParsePatch (r2.dropWhile Char.isDigit) with _ | ⟨p, pre⟩
          · rw [hpat] at h
            cases h
          · have hr2 : r2.count '.' ≤ 1 := by
              conv_lhs => rw [← List.takeWhile_append_dropWhile (p := Char.isDigit) (l := r2)]
              rw [List.count_append, count_dot_takeWhile_digits r2]
              simpa using svParsePatch_count hpat
            have hs : s.count '.' = (s.takeWhile Char.isDigit).count '.'
                + (s.dropWhile Char.isDigit).count '.' := by
              conv_lhs => rw [← List.takeWhile_append_dropWhile (p := Char.isDigit) (l := s)]
              rw [List.count_append]
            rw [hs, count_dot_takeWhile_digits s, hdrop, List.count_cons]
            have : (c == '.') = true := hdot
            simp only [this, if_true]
            omega
      · rw [if_neg hdot] at h
        cases h

/-! ## Decimal rendering produces digits -/

theorem natToCharsAux_digits :
    ∀ (fuel n : Nat) (acc : PyStr), (∀ c ∈ acc, c.isDigit = true) →
      ∀ c ∈ natToCharsAux fuel n acc, c.isDigit = true
  | 0, _, _, h => h
  | fuel + 1, n, acc, h => by
      have h10 : n % 10 < 10 := Nat.mod_lt _ (by norm_num)
      have hd : (Char.ofNat (48 + n % 10)).isDigit = true := by
        generalize n % 10 = k at h10
        interval_cases k <;> decide
      rw [natToCharsAux]
      by_cases hn : n < 10
      · rw [if_pos hn]
        intro c hc
        rcases List.mem_cons.mp hc with rfl | hc'
        · exact hd
        · exact h c hc'
      · rw [if_neg hn]
        exact natToCharsAux_digits fuel (n / 10) _ (fun x hx => by
          rcases List.mem_cons.mp hx with rfl | hx'
          · exact hd
          · exact h x hx')

theorem natToChars_digits (n : Nat) : ∀ c ∈ natToChars n, c.isDigit = true :=
  natToCharsAux_digits (n + 1) n [] (by simp)

/-! ## `updateFirst` characterization -/

theorem updateFirst_of_none (p : Elem → Bool) (f : Elem → Elem) :
    ∀ (l : List Elem), (∀ x ∈ l, p x = false) → updateFirst p f l = l
  | [], _ => rfl
  | c :: cs, h => by
      rw [updateFirst, h c (by simp)]
      simp only [Bool.false_eq_true, if_false]
      rw [updateFirst_of_none p f cs (fun x hx => h x (by simp [hx]))]

theorem updateFirst_first (p : Elem → Bool) (f : Elem → Elem) :
    ∀ (pre : List Elem) (c : Elem) (post : List Elem),
      (∀ x ∈ pre, p x = false) → p c = true →
      updateFirst p f (pre ++ c :: post) = pre ++ f c :: post
  | [], c, post, _, hc => by
      rw [List.nil_append, updateFirst, hc]
      simp
  | x :: pre', c, post, h, hc => by
      rw [List.cons_append, updateFirst, h x (by simp)]
      simp only [Bool.false_eq_true, if_false]
      rw [updateFirst_first p f pre' c post (fun y hy => h y (by simp [hy])) hc]
      simp

theorem Elem.withChildren_self (e : Elem) : e.withChildren e.children = e := by
  cases e
  rfl


/-! ## Claim theorems -/

/-- C9: in automatic-version mode, for every baseline version of the form
`major.minor.patch` (decimal components), the next version chosen is
`major.(minor+1).0`: the major component is kept verbatim (no carry into it),
the minor component is incremented as a decimal number, the patch becomes 0. -/
theorem C9_auto_bump (a b c : PyStr)
    (ha : ∀ ch ∈ a, ch.isDigit = true) (hb : ∀ ch ∈ b, ch.isDigit = true)
    (hc : ∀ ch ∈ c, ch.isDigit = true)
    (hna : a ≠ []) (hnb : b ≠ []) (hnc : c ≠ []) :
    decideVersion (a ++ '.' :: b ++ '.' :: c) "AUTO".data
      = .ok (a ++ ".".data ++ natToChars (digitsVal b + 1) ++ ".".data ++ natToChars 0) := by
  have hdot : ('.' : Char).isDigit = false := by decide
  have hdotfree : ∀ p ∈ [a, b, c], ∀ ch ∈ p, (ch == '.') = false := by
    intro p hp ch hch
    simp only [List.mem_cons, List.not_mem_nil, or_false] at hp
    rcases hp with rfl | rfl | rfl
    · exact digit_not_beq (ha ch hch) hdot
    · exact digit_not_beq (hb ch hch) hdot
    · exact digit_not_beq (hc ch hch) hdot
  have hsplit : pySplitChar '.' (a ++ '.' :: b ++ '.' :: c) = [a, b, c] := by
    have hjoin : pyJoin ['.'] [a, b, c] = a ++ '.' :: b ++ '.' :: c := by
      simp [pyJoin_cons₂, List.append_assoc]
    rw [← hjoin]
    exact pySplitChar_pyJoin '.' [a, b, c] (by simp) hdotfree
  have hint : pyInt b = some (digitsVal b) := by
    unfold pyInt
    rw [if_pos ⟨hnb, List.all_eq_true.mpr hb⟩]
  unfold decideVersion chooseVersion
  rw [if_pos rfl, hsplit]
  dsimp only
  rw [hint]
  dsimp only
  have hdig1 := natToChars_digits (digitsVal b + 1)
  have hdig0 := natToChars_digits 0
  have hsplit2 : pySplitChar '.'
      (a ++ ".".data ++ natToChars (digitsVal b + 1) ++ ".".data ++ natToChars 0)
      = [a, natToChars (digitsVal b + 1), natToChars 0] := by
    have hjoin2 : pyJoin ['.'] [a, natToChars (digitsVal b + 1), natToChars 0]
        = a ++ ".".data ++ natToChars (digitsVal b + 1) ++ ".".data ++ natToChars 0 := by
      simp [pyJoin_cons₂, List.append_assoc]
    rw [← hjoin2]
    refine pySplitChar_pyJoin '.' _ (by simp) ?_
    intro p hp ch hch
    simp only [List.mem_cons, List.not_mem_nil, or_false] at hp
    rcases hp with rfl | rfl | rfl
    · exact digit_not_beq (ha ch hch) hdot
    · exact digit_not_beq (hdig1 ch hch) hdot
    · exact digit_not_beq (hdig0 ch hch) hdot
  rw [hsplit2]
  simp [pyRepeat]

/-- Witness for C9 at the spec's two examples: `1.4.0` bumps to `1.5.0` and
`2.9.0` bumps to `2.10.0`. -/
theorem C9_witness :
    decideVersion "1.4.0".data "AUTO".data = .ok "1.5.0".data
    ∧ decideVersion "2.9.0".data "AUTO".data = .ok "2.10.0".data := by
  constructor
  · exact C9_auto_bump "1".data "4".data "0".data
      (by decide) (by decide) (by decide) (by decide) (by decide) (by decide)
  · exact C9_auto_bump "2".data "9".data "0".data
      (by decide) (by decide) (by decide) (by decide) (by decide) (by decide)

/-- C4 counterexample: the accepted explicit target `1.2` (fewer than 3
components) is padded to `1.2.0`, which has 3 dot-separated components, not
the 4 the claim asserts — no fourth build component is ever appended. -/
theorem C4_counterexample :
    decideVersion "1.0.0".data "1.2".data = .ok "1.2.0".data
    ∧ (pySplitChar '.' "1.2.0".data).length ≠ 4 := by
  constructor
  · rfl
  · decide

/-- C4 amended: every accepted explicit target version with two dot-separated
components is right-padded with zero components to exactly 3 components (and
no further): the decided version is `a.b.0` and has exactly 3 components. -/
theorem C4_amended (cur a b : PyStr) (svt svc : SV)
    (ha : ∀ ch ∈ a, (ch == '.') = false) (hb : ∀ ch ∈ b, (ch == '.') = false)
    (hpt : svParse (a ++ '.' :: b) = some svt)
    (hpc : svParse cur = some svc)
    (hgt : svLe svt svc = false) :
    decideVersion cur (a ++ '.' :: b) = .ok (a ++ '.' :: b ++ ".0".data)
    ∧ (pySplitChar '.' (a ++ '.' :: b ++ ".0".data)).length = 3 := by
  have htA : a ++ '.' :: b ≠ "AUTO".data := by
    intro h
    have hA : svParse "AUTO".data = none := by decide
    rw [h, hA] at hpt
    cases hpt
  have hsplit : pySplitChar '.' (a ++ '.' :: b) = [a, b] := by
    have hjoin : pyJoin ['.'] [a, b] = a ++ '.' :: b := by
      simp [pyJoin_cons₂]
    rw [← hjoin]
    refine pySplitChar_pyJoin '.' [a, b] (by simp) ?_
    intro p hp ch hch
    simp only [List.mem_cons, List.not_mem_nil, or_false] at hp
    rcases hp with rfl | rfl
    · exact ha ch hch
    · exact hb ch hch
  have hsplit3 : pySplitChar '.' (a ++ '.' :: b ++ ".0".data) = [a, b, "0".data] := by
    have hjoin : pyJoin ['.'] [a, b, "0".data] = a ++ '.' :: b ++ ".0".data := by
      simp [pyJoin_cons₂, List.append_assoc]
    rw [← hjoin]
    refine pySplitChar_pyJoin '.' [a, b, "0".data] (by simp) ?_
    intro p hp ch hch
    simp only [List.mem_cons, List.not_mem_nil, or_false] at hp
    rcases hp with rfl | rfl | rfl
    · exact ha ch hch
    · exact hb ch hch
    · have hch0 : ch = '0' := by simpa using hch
      rw [hch0]
      decide
  constructor
  · unfold decideVersion chooseVersion
    rw [if_neg htA, hpt]
    dsimp only
    rw [hpc]
    dsimp only
    rw [hgt]
    simp only [Bool.false_eq_true, if_false]
    rw [hsplit]
    simp [pyRepeat, List.append_assoc]
  · rw [hsplit3]
    rfl

/-- Witness for C4 amended at target `1.2` against baseline `1.0.0`. -/
theorem C4_witness :
    decideVersion "1.0.0".data "1.2".data = .ok "1.2.0".data
    ∧ (pySplitChar '.' "1.2.0".data).length = 3 := by
  have h := C4_amended "1.0.0".data "1".data "2".data ⟨1, 2, 0, none⟩ ⟨1, 0, 0, none⟩
    (by decide) (by decide) (by decide) (by decide) (by decide)
  exact h

/-- C5 counterexample: the explicit target `1.2.3.4` (more than 3 components)
makes `update_addon` fail, but with the `StrictVersion` parse error
(`invalid version number`, line 143), not with the `VersionTooManyParts`
error of line 148 as the claim asserts. -/
theorem C5_counterexample :
    decideVersion "1.0.0".data "1.2.3.4".data = .error (.invalidVersion "1.2.3.4".data)
    ∧ decideVersion "1.0.0".data "1.2.3.4".data ≠ .error .versionTooManyParts := by
  have h1 : decideVersion "1.0.0".data "1.2.3.4".data
      = .error (.invalidVersion "1.2.3.4".data) := rfl
  refine ⟨h1, ?_⟩
  rw [h1]
  intro h
  simp at h

/-- C5 amended: every explicit target version with more than 3 dot-separated
components fails at the `StrictVersion` comparison with the invalid-version
parse error; the `VersionTooManyParts` check of line 147 is never the
failure it reports. -/
theorem C5_amended (cur t : PyStr) (hA : t ≠ "AUTO".data)
    (hparts : (pySplitChar '.' t).length > 3) :
    decideVersion cur t = .error (.invalidVersion t)
    ∧ decideVersion cur t ≠ .error .versionTooManyParts := by
  have hcount : 3 ≤ t.count '.' := by
    have := pySplitChar_length '.' t
    omega
  have hparse : svParse t = none := by
    cases hp : svParse t with
    | none => rfl
    | some v =>
        have := svParse_count hp
        omega
  have hmain : decideVersion cur t = .error (.invalidVersion t) := by
    unfold decideVersion chooseVersion
    rw [if_neg hA, hparse]
  refine ⟨hmain, ?_⟩
  rw [hmain]
  intro h
  simp at h

/-- Witness for C5 amended at target `1.2.3.4` against baseline `1.0.0`. -/
theorem C5_witness :
    decideVersion "1.0.0".data "1.2.3.4".data = .error (.invalidVersion "1.2.3.4".data)
    ∧ decideVersion "1.0.0".data "1.2.3.4".data ≠ .error .versionTooManyParts :=
  C5_amended "1.0.0".data "1.2.3.4".data (by decide) (by decide)

theorem Elem.children_withChildren (e : Elem) (l : List Elem) :
    (e.withChildren l).children = l := by
  cases e
  rfl

/-- C3 amended: for any default key, the per-key fill iterated by
`fillMetadataDefaults` sets the first matching child's text if and only if
that child is PRESENT and its text is empty (`None` or `""`): an absent child
is not created, and any other child — including one with whitespace-only or
non-empty authored text — keeps its text verbatim. -/
theorem C3_amended (key value : String) (e : Elem) :
    ((∀ x ∈ e.children, (x.tag == key) = false) → fillKey key value e = e)
    ∧ (∀ pre c post, e.children = pre ++ c :: post →
        (∀ x ∈ pre, (x.tag == key) = false) → (c.tag == key) = true →
        (fillKey key value e).children
          = pre ++ (if textFalsy c.text then c.withText (some value) else c) :: post) := by
  constructor
  · intro h
    unfold fillKey
    rw [updateFirst_of_none _ _ e.children h, Elem.withChildren_self]
  · intro pre c post hch hpre hc
    unfold fillKey
    rw [Elem.children_withChildren, hch]
    rw [updateFirst_first _ _ pre c post hpre hc]

/-- A manifest whose metadata block has a `license` child with
whitespace-only text (truthy in Python, so the script leaves it alone). -/
def rootC3 : Elem :=
  .mk "addon" [("id", "plugin.video.x"), ("version", "1.0.0")] none
    [.mk "extension" [("point", "xbmc.addon.metadata")] none
      [.mk "license" [] (some " ") []]]

/-- The text of the `license` child of the metadata block, if any. -/
def licenseTextOf (root : Elem) : Option (Option String) :=
  (root.children.find? isMetadataExt).bind fun m =>
    (m.children.find? (fun c => c.tag == "license")).map Elem.text

/-- C3 counterexample: on a manifest whose `license` child holds the
whitespace-only text `" "`, applying the defaults changes nothing — the
whitespace text is NOT replaced by the default license (and the absent
`website`/`news` children are not created), contradicting the claimed
"absent or empty/whitespace" condition. -/
theorem C3_counterexample :
    fillMetadataDefaults
        (default_meta_base ++ [("news", "2.0.0 #abcdef0 (01/01/2026)\n- Fix")]) rootC3
      = rootC3
    ∧ licenseTextOf rootC3 = some (some " ")
    ∧ (some (some " ") : Option (Option String))
        ≠ some (some "GNU General Public License, v2") := by
  refine ⟨rfl, rfl, ?_⟩
  decide

/-- Witness for C3 amended: an empty-text `license` child is filled, and a
key with no matching child leaves the node untouched. -/
theorem C3_witness :
    (fillKey "license" "V" (Elem.mk "extension" [("point", "xbmc.addon.metadata")] none
        [Elem.mk "license" [] (some "") []])).children
      = [] ++ (if textFalsy (some "") then
          (Elem.mk "license" [] (some "") []).withText (some "V")
        else Elem.mk "license" [] (some "") []) :: []
    ∧ fillKey "website" "W" (Elem.mk "extension" [] none [Elem.mk "license" [] none []])
        = Elem.mk "extension" [] none [Elem.mk "license" [] none []] := by
  constructor
  · exact (C3_amended "license" "V" _).2 [] (Elem.mk "license" [] (some "") []) [] rfl
      (by intro x hx; cases hx) rfl
  · exact (C3_amended "website" "W" _).1 (by
      intro x hx
      have : x = Elem.mk "license" [] none [] := by simpa [Elem.children] using hx
      rw [this]
      rfl)

/-- C6 counterexample: a single commit whose message has two paragraphs
(`Fix A`, blank line, `Details here`) yields TWO `- ` lines — one per
paragraph — not the single `- Fix A` line (one per message, first paragraph
only) that the claim asserts. -/
theorem C6_counterexample :
    changesOf (gitLogRaw ["Fix A\n\nDetails here".data]) = "- Fix A\n- Details here".data
    ∧ changesOf (gitLogRaw ["Fix A\n\nDetails here".data]) ≠ "- Fix A".data := by
  constructor
  · rfl
  · decide

/-- C6 amended: the changelog is built from the most recent `LOG_CHANGES`
(= 5) commit messages; each PARAGRAPH of each returned message contributes
exactly one `- <paragraph>` line (so a message contributes one line per
paragraph, and only single-paragraph messages contribute exactly one line);
the range identifier is `<oldCommit>..<newCommit>` when a baseline commit is
known and the sentinel `-1` otherwise. -/
theorem C6_amended (hist : List (List PyStr)) (cur tc : PyStr)
    (h : hist.take LOG_CHANGES ≠ [])
    (hm : ∀ m ∈ hist.take LOG_CHANGES, m ≠ [])
    (hp : ∀ m ∈ hist.take LOG_CHANGES, ∀ p ∈ m, goodPara p = true) :
    changesOf (gitLogRawP (hist.take LOG_CHANGES))
      = "- ".data ++ pyJoin "\n- ".data (hist.take LOG_CHANGES).flatten
    ∧ compRange (some cur) tc = cur ++ "..".data ++ tc
    ∧ compRange none tc = "-1".data :=
  ⟨changesOf_gitLogRawP _ h hm hp, rfl, rfl⟩

/-- Witness for C6 amended: six single-paragraph commits produce five
bullets (the `-n 5` limit), and both range-identifier shapes. -/
theorem C6_witness :
    changesOf (gitLogRawP ([[ "F1".data ], [ "F2".data ], [ "F3".data ],
        [ "F4".data ], [ "F5".data ], [ "F6".data ]].take LOG_CHANGES))
      = "- ".data ++ pyJoin "\n- ".data (([[ "F1".data ], [ "F2".data ], [ "F3".data ],
        [ "F4".data ], [ "F5".data ], [ "F6".data ]].take LOG_CHANGES).flatten)
    ∧ compRange (some "abc1234".data) "def5678".data
        = "abc1234".data ++ "..".data ++ "def5678".data
    ∧ compRange none "def5678".data = "-1".data :=
  C6_amended [[ "F1".data ], [ "F2".data ], [ "F3".data ],
      [ "F4".data ], [ "F5".data ], [ "F6".data ]] "abc1234".data "def5678".data
    (by decide) (by decide) (by decide)

/-- When the path checks, submodule init and revert all pass, `phase1` is the
core decision on the normalized arguments. -/
theorem phase1_of_prelude (env : Env) (tvIn tcIn : Option PyStr)
    (hpath : env.addonPathExists = true)
    (hsub : (env.srcXmlExists || env.submoduleInitOk) = true)
    (hsrc : env.srcPathExists = true)
    (hrev : env.revertOk = true) :
    phase1 env tvIn tcIn
      = phase1core env (normArg "AUTO".data tvIn) (normArg "HEAD".data tcIn) := by
  unfold phase1
  simp [hpath, hsub, hsrc, hrev]

/-- When fetch/merge succeeded and the requested commit is `HEAD` or was
checked out with a matching prefix, the core decision reduces to the
up-to-date check, the version decision and the manifest parse. -/
theorem phase1core_checkout_ok (env : Env) (tv tc : PyStr)
    (hfm : env.fetchMergeOk = true)
    (hck : tc = "HEAD".data ∨ (env.checkoutOk = true ∧ tc = env.resolved.take tc.length)) :
    phase1core env tv tc =
      (if tv = "AUTO".data ∧ baselineCommit env = some env.resolved then
        .error .alreadyUpToDate
      else
        match decideVersion (baselineVersion env) tv with
        | .error e => .error e
        | .ok tvd =>
            match env.srcXml with
            | none => .error .srcXmlUnreadable
            | some root0 =>
                .ok ⟨baselineVersion env, baselineCommit env, tvd,
                     env.resolved.take 7, root0⟩) := by
  unfold phase1core
  rw [hfm]
  rcases hck with htc | ⟨hco, hpre⟩
  · simp [htc]
  · simp [hco, hpre.symm]

/-- C1: for every explicit target version (argument neither missing, empty,
nor `AUTO`) that parses and is less-or-equal to the parsed baseline version
under the `StrictVersion` order, a reconciliation that reaches the version
decision raises the `VersionNotHigher` error and never writes the addon
manifest file. -/
theorem C1_version_not_higher (env : Env) (tvIn tcIn : Option PyStr) (svt svc : SV)
    (hpath : env.addonPathExists = true)
    (hsub : (env.srcXmlExists || env.submoduleInitOk) = true)
    (hsrc : env.srcPathExists = true)
    (hrev : env.revertOk = true)
    (hfm : env.fetchMergeOk = true)
    (hck : normArg "HEAD".data tcIn = "HEAD".data
        ∨ (env.checkoutOk = true
            ∧ normArg "HEAD".data tcIn
                = env.resolved.take (normArg "HEAD".data tcIn).length))
    (hA : normArg "AUTO".data tvIn ≠ "AUTO".data)
    (hpt : svParse (normArg "AUTO".data tvIn) = some svt)
    (hpc : svParse (baselineVersion env) = some svc)
    (hle : svLe svt svc = true) :
    (update_addon env tvIn tcIn).err = some .versionNotHigher
    ∧ (update_addon env tvIn tcIn).manifestWrite = none := by
  have hdv : decideVersion (baselineVersion env) (normArg "AUTO".data tvIn)
      = .error .versionNotHigher := by
    unfold decideVersion chooseVersion
    rw [if_neg hA, hpt]
    dsimp only
    rw [hpc]
    dsimp only
    rw [hle, if_pos rfl]
  have hph : phase1 env tvIn tcIn = .error .versionNotHigher := by
    rw [phase1_of_prelude env tvIn tcIn hpath hsub hsrc hrev,
        phase1core_checkout_ok env _ _ hfm hck]
    rw [if_neg (fun hc => hA hc.1)]
    rw [hdv]
  unfold update_addon
  rw [hph]
  exact ⟨rfl, rfl⟩

/-- C2: in automatic-version mode, when the commit resolved after
fetch/merge equals the baseline commit read before, the reconciliation
raises the `AlreadyUpToDate` error and never writes the addon manifest
file. -/
theorem C2_already_up_to_date (env : Env) (tvIn tcIn : Option PyStr) (v c : PyStr)
    (hpath : env.addonPathExists = true)
    (hsub : (env.srcXmlExists || env.submoduleInitOk) = true)
    (hsrc : env.srcPathExists = true)
    (hrev : env.revertOk = true)
    (hfm : env.fetchMergeOk = true)
    (hck : normArg "HEAD".data tcIn = "HEAD".data
        ∨ (env.checkoutOk = true
            ∧ normArg "HEAD".data tcIn
                = env.resolved.take (normArg "HEAD".data tcIn).length))
    (hA : normArg "AUTO".data tvIn = "AUTO".data)
    (hbase : env.baseline = some (v, c))
    (hres : env.resolved = c) :
    (update_addon env tvIn tcIn).err = some .alreadyUpToDate
    ∧ (update_addon env tvIn tcIn).manifestWrite = none := by
  have hbc : baselineCommit env = some env.resolved := by
    unfold baselineCommit
    rw [hbase, hres]
  have hph : phase1 env tvIn tcIn = .error .alreadyUpToDate := by
    rw [phase1_of_prelude env tvIn tcIn hpath hsub hsrc hrev,
        phase1core_checkout_ok env _ _ hfm hck]
    rw [if_pos ⟨hA, hbc⟩]
  unfold update_addon
  rw [hph]
  exact ⟨rfl, rfl⟩

/-- C8 amended: the staging directory is removed when the staging copy, the
manifest copy into it and the archive step all succeed (whether or not the
final `-latest.zip` copy succeeds); there is no `try/finally`, so the
removal is tied to reaching line 191, not to a scope guard. -/
theorem C8_amended (env : Env) (tvIn tcIn : Option PyStr) (ctx : DecCtx)
    (hph : phase1 env tvIn tcIn = .ok ctx)
    (hassets : env.assetsOk = true)
    (hct : env.copytreeOk = true)
    (hcx : env.copyXmlOk = true)
    (har : env.archiveOk = true) :
    (update_addon env tvIn tcIn).tmpExists = false := by
  unfold update_addon
  rw [hph]
  unfold phase2
  cases hcl : env.copyLatestOk <;> simp [hassets, hct, hcx, har, hcl]

/-- A small embedded-checkout manifest used by the concrete runs. -/
def srcManifest : Elem :=
  .mk "addon" [("id", "plugin.video.x"), ("version", "1.2.0")] none
    [.mk "extension" [("point", "xbmc.addon.metadata")] none
      [.mk "license" [] none [], .mk "news" [] none []]]

/-- A run environment in which every external call succeeds and the merge
moved the checkout to a new commit. -/
def envAllOk : Env where
  addonPathExists := true
  srcXmlExists := true
  submoduleInitOk := true
  srcPathExists := true
  revertOk := true
  baseline := some ("1.2.0".data, "0123456789abcdef0123456789abcdef01234567".data)
  fetchMergeOk := true
  checkoutOk := true
  resolved := "fedcba9876543210fedcba9876543210fedcba98".data
  srcXml := some srcManifest
  logRaw := "Fix A\n\nFix B\n\n".data
  today := "12/10/2026"
  assetsOk := true
  tmpInitial := false
  copytreeOk := true
  copyXmlOk := true
  archiveOk := true
  copyLatestOk := true

/-- Witness for C1: requesting version `1.2.0` when the baseline is `1.2.0`
fails with `VersionNotHigher` and writes nothing. -/
theorem C1_witness :
    (update_addon envAllOk (some "1.2.0".data) none).err = some .versionNotHigher
    ∧ (update_addon envAllOk (some "1.2.0".data) none).manifestWrite = none :=
  C1_version_not_higher envAllOk (some "1.2.0".data) none ⟨1, 2, 0, none⟩ ⟨1, 2, 0, none⟩
    rfl rfl rfl rfl rfl (Or.inl rfl) (by decide) (by decide) (by decide) (by decide)

/-- The all-ok environment, but the resolved commit equals the baseline
commit. -/
def envUpToDate : Env :=
  { envAllOk with resolved := "0123456789abcdef0123456789abcdef01234567".data }

/-- Witness for C2: an automatic-mode run whose resolved commit equals the
baseline commit fails with `AlreadyUpToDate` and writes nothing. -/
theorem C2_witness :
    (update_addon envUpToDate none none).err = some .alreadyUpToDate
    ∧ (update_addon envUpToDate none none).manifestWrite = none :=
  C2_already_up_to_date envUpToDate none none "1.2.0".data
    "0123456789abcdef0123456789abcdef01234567".data
    rfl rfl rfl rfl rfl (Or.inl rfl) rfl rfl rfl

/-- The all-ok environment, but `shutil.make_archive` raises. -/
def envArchiveFail : Env := { envAllOk with archiveOk := false }

/-- C8 counterexample: when `shutil.make_archive` raises after the staging
copy, the run aborts with the archive error and the staging directory is
LEFT ON DISK — the removal of line 191 never runs, contradicting the claimed
cleanup on every execution path. -/
theorem C8_counterexample :
    (update_addon envArchiveFail none none).err = some .archiveFailed
    ∧ (update_addon envArchiveFail none none).tmpExists = true := by
  constructor
  · rfl
  · rfl

/-- Witness for C8 amended: a fully successful run ends with the staging
directory removed. -/
theorem C8_witness : (update_addon envAllOk none none).tmpExists = false :=
  C8_amended envAllOk none none
    ⟨"1.2.0".data, some "0123456789abcdef0123456789abcdef01234567".data,
     "1.3.0".data, "fedcba9".data, srcManifest⟩
    rfl rfl rfl rfl rfl

/-- The root an addon contributes to the aggregate: `some` iff its manifest
file exists and parses. -/
def rootOf : ManifestFile → Option Elem
  | .absent => none
  | .malformed => none
  | .parsed r => some r

/-- When no listed manifest is malformed, the collection loop returns
exactly the parsed roots, in order, skipping absent manifests. -/
theorem collectRoots_ok (manifest : String → ManifestFile) :
    ∀ (addons : List String), (∀ a ∈ addons, manifest a ≠ .malformed) →
      collectRoots manifest addons = .ok (addons.filterMap (fun a => rootOf (manifest a)))
  | [], _ => rfl
  | a :: rest, h => by
      have ih := collectRoots_ok manifest rest (fun x hx => h x (by simp [hx]))
      cases hm : manifest a with
      | absent => simp [collectRoots, hm, ih, List.filterMap_cons, rootOf]
      | malformed => exact absurd hm (h a (by simp))
      | parsed r => simp [collectRoots, hm, ih, List.filterMap_cons, rootOf]

/-- The bytes written over `addons.xml`: XML declaration plus the serialized
fresh aggregate, with `\r\n` line endings. -/
def indexDisk (env : XEnv) : String :=
  String.mk (crlf (xmlHeader ++ env.serialize (Elem.mk "addons" [] none
    ((get_addons env.listing).filterMap (fun a => rootOf (env.addonXml a))))).data)

/-- `get_addons` never lists the version-control metadata directory. -/
theorem git_not_mem_get_addons (listing : List DirEnt) : ".git" ∉ get_addons listing := by
  intro h
  unfold get_addons at h
  rw [List.mem_map] at h
  obtain ⟨e, he, hname⟩ := h
  rw [List.mem_filter] at he
  have hcond := he.2
  rw [hname] at hcond
  simp at hcond

/-- C7: rebuilding the index always succeeds on a repository whose present
manifests parse, producing a fresh aggregate whose children are exactly the
manifest roots of the immediate subdirectories (version-control metadata
excluded) that have a readable manifest, in directory-listing order and
silently skipping subdirectories without one; the files written are the
serialized index and the sidecar `<hex-checksum> addons.xml`, the checksum
being that of the serialized index bytes. -/
theorem C7_index_rebuild (env : XEnv)
    (hold : env.oldIndexExists = true)
    (hok : ∀ a ∈ get_addons env.listing, env.addonXml a ≠ .malformed) :
    (update_addons_xml env).err = none
    ∧ (update_addons_xml env).children
        = (get_addons env.listing).filterMap (fun a => rootOf (env.addonXml a))
    ∧ (update_addons_xml env).written
        = [(ADDONS_XML, indexDisk env),
           (ADDONS_XML ++ ".md5", env.md5hex (indexDisk env).data ++ " " ++ ADDONS_XML)]
    ∧ ".git" ∉ get_addons env.listing := by
  have hcoll := collectRoots_ok env.addonXml (get_addons env.listing) hok
  unfold update_addons_xml
  rw [hold]
  simp only [if_true]
  rw [hcoll]
  exact ⟨rfl, rfl, rfl, git_not_mem_get_addons env.listing⟩

/-- C10: rebuilding the index requires the index file to already exist —
`update_addons_xml` hashes the old index before writing anything, so when
the file is absent the run fails and writes neither the index nor the
sidecar. -/
theorem C10_requires_index (env : XEnv) (h : env.oldIndexExists = false) :
    (update_addons_xml env).err = some .indexFileMissing
    ∧ (update_addons_xml env).written = []
    ∧ (update_addons_xml env).children = [] := by
  unfold update_addons_xml
  rw [h]
  exact ⟨rfl, rfl, rfl⟩

/-- Manifest root of the first sample addon. -/
def elemA : Elem := .mk "addon" [("id", "aardvark"), ("version", "1.0.0")] none []

/-- Manifest root of the second sample addon. -/
def elemB : Elem := .mk "addon" [("id", "bison"), ("version", "2.3.0")] none []

/-- A sample repository listing: two addons with manifests, the `.git`
directory, a plain file and an addon directory without a manifest. -/
def xenvRepo : XEnv where
  listing := [⟨"aardvark", true⟩, ⟨".git", true⟩, ⟨"notes.txt", false⟩,
              ⟨"bison", true⟩, ⟨"empty", true⟩]
  addonXml := fun a =>
    if a = "aardvark" then .parsed elemA
    else if a = "bison" then .parsed elemB
    else .absent
  oldIndexExists := true
  md5hex := fun _ => "0123abcd"
  serialize := fun _ => "<addons/>"

/-- Witness for C7 on the sample repository. -/
theorem C7_witness :
    (update_addons_xml xenvRepo).err = none
    ∧ (update_addons_xml xenvRepo).children
        = (get_addons xenvRepo.listing).filterMap (fun a => rootOf (xenvRepo.addonXml a))
    ∧ (update_addons_xml xenvRepo).written
        = [(ADDONS_XML, indexDisk xenvRepo),
           (ADDONS_XML ++ ".md5",
             xenvRepo.md5hex (indexDisk xenvRepo).data ++ " " ++ ADDONS_XML)]
    ∧ ".git" ∉ get_addons xenvRepo.listing := by
  refine C7_index_rebuild xenvRepo rfl ?_
  intro a ha
  have hga : get_addons xenvRepo.listing = ["aardvark", "bison", "empty"] := rfl
  rw [hga] at ha
  simp only [List.mem_cons, List.not_mem_nil, or_false] at ha
  rcases ha with rfl | rfl | rfl <;> intro h <;> cases h

/-- The sample repository with the index file absent. -/
def xenvNoIndex : XEnv := { xenvRepo with oldIndexExists := false }

/-- Witness for C10: with the index file absent nothing is written. -/
theorem C10_witness :
    (update_addons_xml xenvNoIndex).err = some .indexFileMissing
    ∧ (update_addons_xml xenvNoIndex).written = []
    ∧ (update_addons_xml xenvNoIndex).children = [] :=
  C10_requires_index xenvNoIndex rfl
